import Mathlib

/-!
Verification of the core of sequencemedia/glob-watcher (index.mjs).

The development shallowly embeds two components of the package:

* the glob classification pipeline of the `watch` entry point
  (`isNegatedGlob`, the sparse `ignoredGlobs`/`watchedGlobs` arrays,
  `toUnsparse`, `getIsPathIgnored`, `getIgnored`, and the
  "Nothing to watch" failure path), and

* the run coordinator: the primary `getEventHandler` (index.mjs,
  first definition) and the sibling `getDebounced` definition, each
  composed with the trailing-edge debounce wrapper provided by the
  external `just-debounce` dependency.

External collaborators are modelled by their documented behaviour:
`anymatch(patterns, path, true)` returns the index of the first pattern
in the supplied array that matches the path (or -1); `is-negated-glob`
reports a pattern as negated when it starts with the exclamation mark
and is not an extglob group; `just-debounce` (with no leading-edge
options) re-arms a single timer on every call and invokes the wrapped
function once the delay has elapsed after the most recent call.
Path normalization (`normalize-path`, `path.join`) is kept abstract as a
function parameter, as the spec treats it as an external collaborator.

Time is modelled as a natural number of milliseconds.  A system trace is
a list of timed external stimuli (watcher change events and task
completion signals); due debounce timers fire before a later stimulus is
handled, and a final flush fires any timer still pending.
-/

namespace GlobWatcher

/-- Result record of the external `is-negated-glob` dependency. -/
structure NegGlob where
  negated : Bool
  pattern : String
deriving Repr, DecidableEq

/-- Model of the external `is-negated-glob` dependency: a pattern is
negated when its first character is the exclamation mark and the second
character does not open an extglob group; the marker is stripped once.
The definition works on the string's character list so that it can be
evaluated by kernel reduction. -/
def isNegatedGlob (g : String) : NegGlob :=
  match g.data with
  | '!' :: rest =>
    match rest with
    | '(' :: _ => { negated := false, pattern := g }
    | _ => { negated := true, pattern := { data := rest } }
  | _ => { negated := false, pattern := g }

/-- Sparse array `ignoredGlobs` built by the `watch` entry point: slot
`i` holds the stripped pattern when the caller's pattern at index `i` is
negated, and is an empty slot otherwise (index.mjs lines 156-171). -/
def ignoredGlobs (glob : List String) : List (Option String) :=
  glob.map fun g =>
    let r := isNegatedGlob g
    if r.negated then some r.pattern else none

/-- Sparse array `watchedGlobs` built by the `watch` entry point: slot
`i` holds the stripped pattern when the caller's pattern at index `i` is
not negated, and is an empty slot otherwise. -/
def watchedGlobs (glob : List String) : List (Option String) :=
  glob.map fun g =>
    let r := isNegatedGlob g
    if r.negated then none else some r.pattern

/-- JavaScript truthiness of a sparse-array slot as tested by
`Array.prototype.some(Boolean)` and `Array.prototype.filter(Boolean)`:
a hole and the empty string are falsy, any other string is truthy. -/
def jsTruthy : Option String → Bool
  | none => false
  | some s => !(s == "")

/-- Model of `array.some(Boolean)` on a sparse array. -/
def someBoolean (l : List (Option String)) : Bool :=
  l.any jsTruthy

/-- Model of `array.filter(Boolean)` on a sparse array: keeps the truthy
slots, dropping holes and empty strings. -/
def filterBoolean (l : List (Option String)) : List String :=
  l.filterMap fun o => if jsTruthy o then o else none

/-- The watch-set handed to chokidar: `watchedGlobs.filter(Boolean)`
(index.mjs line 178). -/
def watched (glob : List String) : List String :=
  filterBoolean (watchedGlobs glob)

/-- Model of `toUnsparse` (index.mjs lines 24-33): every empty slot is
replaced in place by the `SPARSE` sentinel string, which is chosen so
that it never matches a real path. -/
def toUnsparse (sparse : String) (l : List (Option String)) : List String :=
  l.map fun o => o.getD sparse

/-- Model of the external `anymatch(paths, path, true)` call: the index
of the first pattern in `paths` matching `path` under the matcher `m`,
or `-1` when no pattern matches. -/
def anymatch (m : String → String → Bool) (paths : List String) (path : String) : Int :=
  match List.findIdx? (fun g => m g path) paths with
  | some i => (i : Int)
  | none => -1

/-- The closure returned by `getIsPathIgnored`: it captures the two
normalized pattern arrays after the lockstep in-place reversal performed
at closure-creation time (index.mjs lines 56-57). -/
structure IsPathIgnoredClosure where
  ignoredPaths : List String
  watchedPaths : List String
deriving Repr, DecidableEq

/-- Model of `getIsPathIgnored` (index.mjs lines 43-74): both arrays are
reversed before the predicate closes over them. -/
def getIsPathIgnored (ignoredPaths watchedPaths : List String) : IsPathIgnoredClosure :=
  { ignoredPaths := ignoredPaths.reverse, watchedPaths := watchedPaths.reverse }

/-- Model of the `isPathIgnored` predicate (index.mjs lines 59-73),
parameterized by the matcher `m` implemented by the external `anymatch`
dependency. -/
def isPathIgnored (m : String → String → Bool) (c : IsPathIgnoredClosure) (path : String) : Bool :=
  let ignoredIndex := anymatch m c.ignoredPaths path
  if ignoredIndex = -1 then false
  else
    let watchedIndex := anymatch m c.watchedPaths path
    if watchedIndex = -1 then true
    else decide (ignoredIndex < watchedIndex)

/-- The ignore configuration handed to chokidar: either the caller's
(or defaulted) value untouched, or that value composed with the built
predicate closure (`[].concat(ignored, getIsPathIgnored(...))`,
index.mjs line 81). -/
inductive IgnoredCfg (β : Type) where
  | user (v : β)
  | composed (v : β) (c : IsPathIgnoredClosure)
deriving Repr, DecidableEq

/-- Model of `getIgnored` (index.mjs lines 76-82): both sparse arrays
are mapped through the normalizer (array holes are preserved by
JavaScript `map`), unsparsed with the sentinel, and the predicate
closure is appended to the caller's ignore configuration. -/
def getIgnored {β : Type} (norm : String → String) (sparse : String) (ignored : β)
    (ig wa : List (Option String)) : IgnoredCfg β :=
  let ignoredPaths := toUnsparse sparse (ig.map (Option.map norm))
  let watchedPaths := toUnsparse sparse (wa.map (Option.map norm))
  .composed ignored (getIsPathIgnored ignoredPaths watchedPaths)

/-- The `config.ignored` decision of the `watch` entry point
(index.mjs lines 173-175): the predicate is built and attached only when
some negated pattern slot is truthy. -/
def resolveIgnored {β : Type} (norm : String → String) (sparse : String)
    (glob : List String) (ignored : β) : IgnoredCfg β :=
  if someBoolean (ignoredGlobs glob) then
    getIgnored norm sparse ignored (ignoredGlobs glob) (watchedGlobs glob)
  else
    .user ignored

/-- The configuration of the watcher that the `watch` entry point
creates on its success path. -/
structure WatcherModel (β : Type) where
  watchedSet : List String
  ignoredCfg : IgnoredCfg β
deriving Repr, DecidableEq

/-- Model of the `watch` entry point's classification and failure logic
(index.mjs lines 136-194): the ignore configuration is resolved, and a
watcher is produced only when some positive slot is truthy; otherwise
the call fails synchronously with the "Nothing to watch" error, and the
error branch carries no watcher at all. -/
def watch {β : Type} (norm : String → String) (sparse : String)
    (glob : List String) (ignored : β) : Except String (WatcherModel β) :=
  let cfgIgnored := resolveIgnored norm sparse glob ignored
  if someBoolean (watchedGlobs glob) then
    .ok { watchedSet := watched glob, ignoredCfg := cfgIgnored }
  else
    .error "Nothing to watch"

/-- The normalized, original-order ignored-pattern array built inside
`getIgnored` before the reversal. -/
def ignoredPathsOf (norm : String → String) (sparse : String) (glob : List String) : List String :=
  toUnsparse sparse ((ignoredGlobs glob).map (Option.map norm))

/-- The normalized, original-order watched-pattern array built inside
`getIgnored` before the reversal. -/
def watchedPathsOf (norm : String → String) (sparse : String) (glob : List String) : List String :=
  toUnsparse sparse ((watchedGlobs glob).map (Option.map norm))

/-- Index of the last element of the list satisfying `p`, in original
order (`none` when no element matches).  This is the specification-side
reading of `anymatch` applied to the reversed arrays. -/
def lastMatch {α : Type} (p : α → Bool) : List α → Option Nat
  | [] => none
  | x :: xs =>
    match lastMatch p xs with
    | some i => some (i + 1)
    | none => if p x then some 0 else none

/-- Matching of a sparse classification slot against a candidate path:
an empty slot never matches, a populated slot matches when its
normalized pattern matches the path. -/
def slotMatches (m : String → String → Bool) (norm : String → String) (path : String) :
    Option String → Bool
  | none => false
  | some g => m (norm g) path

/-! ## The run coordinator -/

/-- External stimuli driving one coordinator instance: a watcher change
event at a given time, or the completion signal of a task run at a given
time, optionally carrying an error value (errors are represented by
natural-number identities). -/
inductive Stim where
  | change (t : Nat)
  | complete (t : Nat) (e : Option Nat)
deriving Repr, DecidableEq

/-- Observable state of one coordinator instance together with its
debounce wrapper: `pending` is the absolute time at which the armed
debounce timer fires (if armed); `isQueued` and `isRunning` are the
coordinator's own flags; `inFlight` counts task invocations started and
not yet completed; `starts` records the start time of every task
invocation; `emitted` records every error value emitted on the watcher's
error channel. -/
structure SysState where
  pending : Option Nat
  isQueued : Bool
  isRunning : Bool
  inFlight : Nat
  starts : List Nat
  emitted : List Nat
deriving Repr, DecidableEq

/-- The state of a freshly created coordinator. -/
def startState : SysState :=
  { pending := none, isQueued := false, isRunning := false
    inFlight := 0, starts := [], emitted := [] }

/-- Model of `hasErrorListener` (index.mjs lines 92-94): the listener
count of the error channel is nonzero. -/
def hasErrorListener (listeners : Nat) : Bool :=
  decide (listeners ≠ 0)

/-- Model of `onRunStart` of the primary `getEventHandler`
(index.mjs lines 117-128): while running, the event only sets the
`isQueued` flag (when queueing is enabled); otherwise a task run is
started via `asyncDone`.  Note that this definition faithfully mirrors
the source, which does not modify `isRunning` here. -/
def onRunStartV1 (queue : Bool) (t : Nat) (s : SysState) : SysState :=
  if s.isRunning then
    if queue then { s with isQueued := true } else s
  else
    { s with inFlight := s.inFlight + 1, starts := s.starts ++ [t] }

/-- Model of `onRunEnd` of the primary `getEventHandler`
(index.mjs lines 102-114): an error is emitted when a listener is
subscribed; when a rerun is queued, the flags are updated and
`onRunStart` is invoked again.  Note that this definition faithfully
mirrors the source, which does not clear `isRunning` here. -/
def onRunEndV1 (queue : Bool) (listeners : Nat) (t : Nat) (e : Option Nat) (s : SysState) :
    SysState :=
  let s1 := match e with
    | some err =>
        if hasErrorListener listeners then { s with emitted := s.emitted ++ [err] } else s
    | none => s
  if s1.isQueued then
    onRunStartV1 queue t { s1 with isQueued := false, isRunning := true }
  else
    s1

/-- Model of `onRunStart` of the sibling `getDebounced` definition
(index.mjs lines 297-307): while running, the event sets `isQueued`
(when queueing is enabled) and is otherwise dropped; from idle it marks
the coordinator running and starts a task run. -/
def onRunStartV2 (queue : Bool) (t : Nat) (s : SysState) : SysState :=
  if s.isRunning then
    if queue then { s with isQueued := true } else s
  else
    { s with isRunning := true, inFlight := s.inFlight + 1, starts := s.starts ++ [t] }

/-- Model of `onRunEnd` of the sibling `getDebounced` definition
(index.mjs lines 283-295): the running flag is cleared, an error is
emitted when a listener is subscribed, and a queued rerun restarts
`onRunStart` directly. -/
def onRunEndV2 (queue : Bool) (listeners : Nat) (t : Nat) (e : Option Nat) (s : SysState) :
    SysState :=
  let s1 := { s with isRunning := false }
  let s2 := match e with
    | some err =>
        if hasErrorListener listeners then { s1 with emitted := s1.emitted ++ [err] } else s1
    | none => s1
  if s2.isQueued then
    onRunStartV2 queue t { s2 with isQueued := false }
  else
    s2

/-- A due debounce timer fires (invoking the supplied run-start logic at
the timer's scheduled time) before a stimulus at time `t` is handled. -/
def fireDue (run : Nat → SysState → SysState) (t : Nat) (s : SysState) : SysState :=
  match s.pending with
  | some u => if u ≤ t then run u { s with pending := none } else s
  | none => s

/-- One stimulus handled by the primary coordinator (`getEventHandler`
wrapped in `debounce(onRunStart, delay)`): a change event re-arms the
single debounce timer to fire `delay` after the event; a completion
signal retires the finished run and executes `onRunEnd`. -/
def procV1 (delay : Nat) (queue : Bool) (listeners : Nat) (s : SysState) : Stim → SysState
  | .change t =>
      let s1 := fireDue (onRunStartV1 queue) t s
      { s1 with pending := some (t + delay) }
  | .complete t e =>
      let s1 := fireDue (onRunStartV1 queue) t s
      onRunEndV1 queue listeners t e { s1 with inFlight := s1.inFlight - 1 }

/-- A debounce timer still armed when the trace ends eventually fires. -/
def flushV1 (queue : Bool) (s : SysState) : SysState :=
  match s.pending with
  | some u => onRunStartV1 queue u { s with pending := none }
  | none => s

/-- The primary coordinator run on a whole trace from the fresh state. -/
def runV1 (delay : Nat) (queue : Bool) (listeners : Nat) (trace : List Stim) : SysState :=
  flushV1 queue (trace.foldl (procV1 delay queue listeners) startState)

/-- One stimulus handled by the sibling `getDebounced` coordinator. -/
def procV2 (delay : Nat) (queue : Bool) (listeners : Nat) (s : SysState) : Stim → SysState
  | .change t =>
      let s1 := fireDue (onRunStartV2 queue) t s
      { s1 with pending := some (t + delay) }
  | .complete t e =>
      let s1 := fireDue (onRunStartV2 queue) t s
      onRunEndV2 queue listeners t e { s1 with inFlight := s1.inFlight - 1 }

/-- A debounce timer still armed when the trace ends eventually fires
(`getDebounced` coordinator). -/
def flushV2 (queue : Bool) (s : SysState) : SysState :=
  match s.pending with
  | some u => onRunStartV2 queue u { s with pending := none }
  | none => s

/-- The `getDebounced` coordinator run on a whole trace from the fresh
state. -/
def runV2 (delay : Nat) (queue : Bool) (listeners : Nat) (trace : List Stim) : SysState :=
  flushV2 queue (trace.foldl (procV2 delay queue listeners) startState)

/-! ## Heap model of the entry point's array handling

The no-mutation claim about the caller's pattern array is about aliasing
of JavaScript array objects, so this part of the embedding makes the
heap explicit: a store maps references (allocation indexes) to array
contents, the spread copy and every `map` allocate a fresh array, and
`toUnsparse`, the classification writes, and the two `reverse` calls are
in-place writes to the reference they are applied to. -/

namespace Heap

/-- A JavaScript array of (possibly missing) strings. -/
abbrev JSArray := List (Option String)

/-- The heap: array contents indexed by reference. -/
abbrev Store := List JSArray

/-- Contents of the array object behind a reference. -/
def readRef (σ : Store) (r : Nat) : JSArray :=
  σ.getD r []

/-- In-place update of the array object behind a reference. -/
def writeRef (σ : Store) (r : Nat) (v : JSArray) : Store :=
  σ.set r v

/-- One step of the `glob.forEach` classification loop
(index.mjs lines 159-171): the pattern at index `i` of the copied array
is classified, and exactly one of the two sparse arrays is written in
place at index `i` (holes of the source array are skipped, as JavaScript
`forEach` does). -/
def classifyStep (src ig wa : Nat) (σ : Store) (i : Nat) : Store :=
  match (readRef σ src).getD i none with
  | none => σ
  | some g =>
    let r := GlobWatcher.isNegatedGlob g
    if r.negated then
      writeRef σ ig ((readRef σ ig).set i (some r.pattern))
    else
      writeRef σ wa ((readRef σ wa).set i (some r.pattern))

/-- The whole classification loop over the indexes of the copied
array. -/
def classifyLoop (σ : Store) (src ig wa : Nat) : Store :=
  (List.range (readRef σ src).length).foldl (classifyStep src ig wa) σ

/-- Classification phase of the `watch` entry point at heap level
(index.mjs lines 148-171): the caller's array behind `globRef` is
copied by spread (a fresh allocation), the two sparse arrays are
allocated at the copy's length, and the classification loop fills them
in place. -/
def classifyPhase (σ0 : Store) (globRef : Nat) : Store :=
  let copyRef : Nat := σ0.length
  let σ1 := σ0 ++ [readRef σ0 globRef]
  let n := (readRef σ1 copyRef).length
  let igRef : Nat := σ1.length
  let σ2 := σ1 ++ [List.replicate n none]
  let waRef : Nat := σ2.length
  let σ3 := σ2 ++ [List.replicate n none]
  classifyLoop σ3 copyRef igRef waRef

/-- Predicate-building phase at heap level (`getIgnored` and
`getIsPathIgnored`, index.mjs lines 43-82): each sparse array is mapped
through the normalizer into a fresh array, that fresh array is unsparsed
in place by `toUnsparse`, and finally both are reversed in place. -/
def predicatePhase (norm : String → String) (sparse : String)
    (σ4 : Store) (igRef waRef : Nat) : Store :=
  let ipRef : Nat := σ4.length
  let σ5 := σ4 ++ [(readRef σ4 igRef).map (Option.map norm)]
  let σ6 := writeRef σ5 ipRef ((readRef σ5 ipRef).map fun o => some (o.getD sparse))
  let wpRef : Nat := σ6.length
  let σ7 := σ6 ++ [(readRef σ6 waRef).map (Option.map norm)]
  let σ8 := writeRef σ7 wpRef ((readRef σ7 wpRef).map fun o => some (o.getD sparse))
  let σ9 := writeRef σ8 ipRef (readRef σ8 ipRef).reverse
  writeRef σ9 wpRef (readRef σ9 wpRef).reverse

/-- Heap-level model of the array handling of the `watch` entry point
(index.mjs lines 148-175): the classification phase runs always, and
the predicate-building phase runs only when some negated slot is truthy.
The function returns the final store. -/
def watchHeap (norm : String → String) (sparse : String) (σ0 : Store) (globRef : Nat) : Store :=
  let igRef : Nat := σ0.length + 1
  let waRef : Nat := σ0.length + 2
  let σ4 := classifyPhase σ0 globRef
  if GlobWatcher.someBoolean (readRef σ4 igRef) then
    predicatePhase norm sparse σ4 igRef waRef
  else
    σ4

end Heap

/-! ## Lemmas about the ignore predicate -/

lemma lastMatch_lt_length {α : Type} (p : α → Bool) (l : List α) (i : Nat)
    (h : lastMatch p l = some i) : i < l.length := by
  induction l generalizing i with
  | nil => simp [lastMatch] at h
  | cons x xs ih =>
    simp only [lastMatch] at h
    cases hx : lastMatch p xs with
    | some j =>
      rw [hx] at h
      simp only [Option.some.injEq] at h
      have := ih j hx
      simp [List.length_cons]
      omega
    | none =>
      rw [hx] at h
      by_cases hp : p x
      · simp [hp] at h
        simp [List.length_cons]
        omega
      · simp [hp] at h

lemma findIdx?_reverse_eq_lastMatch {α : Type} (p : α → Bool) (l : List α) :
    List.findIdx? p l.reverse = (lastMatch p l).map (fun i => l.length - 1 - i) := by
  induction l with
  | nil => rfl
  | cons x xs ih =>
    rw [List.reverse_cons, List.findIdx?_append, ih]
    cases hx : lastMatch p xs with
    | some j =>
      have hj := lastMatch_lt_length p xs j hx
      simp [lastMatch, hx]
      omega
    | none =>
      by_cases hp : p x <;>
        simp [lastMatch, hx, hp, List.findIdx?_cons, List.findIdx?,
          List.length_reverse]

lemma anymatch_reverse_eq_some (m : String → String → Bool) (path : String)
    (l : List String) (i : Nat) (h : lastMatch (fun g => m g path) l = some i) :
    anymatch m l.reverse path = ((l.length - 1 - i : Nat) : Int) := by
  unfold anymatch
  rw [findIdx?_reverse_eq_lastMatch, h]
  rfl

lemma anymatch_reverse_eq_none (m : String → String → Bool) (path : String)
    (l : List String) (h : lastMatch (fun g => m g path) l = none) :
    anymatch m l.reverse path = -1 := by
  unfold anymatch
  rw [findIdx?_reverse_eq_lastMatch, h]
  rfl

lemma isPathIgnored_getIsPathIgnored (m : String → String → Bool) (path : String)
    (A B : List String) (hlen : A.length = B.length) :
    isPathIgnored m (getIsPathIgnored A B) path =
      match lastMatch (fun g => m g path) A, lastMatch (fun g => m g path) B with
      | none, _ => false
      | some _, none => true
      | some i, some j => decide (j < i) := by
  show (let ignoredIndex := anymatch m A.reverse path
        if ignoredIndex = -1 then false
        else
          let watchedIndex := anymatch m B.reverse path
          if watchedIndex = -1 then true
          else decide (ignoredIndex < watchedIndex)) = _
  cases hA : lastMatch (fun g => m g path) A with
  | none =>
    rw [anymatch_reverse_eq_none m path A hA]
    simp
  | some i =>
    have hi := lastMatch_lt_length _ _ _ hA
    rw [anymatch_reverse_eq_some m path A i hA]
    cases hB : lastMatch (fun g => m g path) B with
    | none =>
      rw [anymatch_reverse_eq_none m path B hB]
      show (if ((A.length - 1 - i : Nat) : Int) = -1 then false
            else if (-1 : Int) = -1 then true else decide _) = true
      rw [if_neg (by omega), if_pos rfl]
    | some j =>
      have hj := lastMatch_lt_length _ _ _ hB
      rw [anymatch_reverse_eq_some m path B j hB]
      show (if ((A.length - 1 - i : Nat) : Int) = -1 then false
            else if ((B.length - 1 - j : Nat) : Int) = -1 then true
            else decide (((A.length - 1 - i : Nat) : Int) < ((B.length - 1 - j : Nat) : Int)))
          = decide (j < i)
      rw [if_neg (by omega), if_neg (by omega), decide_eq_decide]
      omega

lemma lastMatch_toUnsparse (m : String → String → Bool) (norm : String → String)
    (sparse path : String) (hs : m sparse path = false) (sl : List (Option String)) :
    lastMatch (fun g => m g path) (toUnsparse sparse (sl.map (Option.map norm))) =
      lastMatch (slotMatches m norm path) sl := by
  induction sl with
  | nil => rfl
  | cons o l ih =>
    show lastMatch (fun g => m g path)
        (((Option.map norm o).getD sparse) :: toUnsparse sparse (l.map (Option.map norm))) = _
    simp only [lastMatch, ih]
    cases hres : lastMatch (slotMatches m norm path) l <;>
      cases o <;>
        simp [slotMatches, hs]

lemma length_ignoredPathsOf (norm : String → String) (sparse : String) (glob : List String) :
    (ignoredPathsOf norm sparse glob).length = glob.length := by
  simp [ignoredPathsOf, toUnsparse, ignoredGlobs]

lemma length_watchedPathsOf (norm : String → String) (sparse : String) (glob : List String) :
    (watchedPathsOf norm sparse glob).length = glob.length := by
  simp [watchedPathsOf, toUnsparse, watchedGlobs]

lemma not_mem_filterBoolean_empty (l : List (Option String)) : "" ∉ filterBoolean l := by
  simp only [filterBoolean, List.mem_filterMap]
  rintro ⟨o, _, heq⟩
  cases o with
  | none => simp [jsTruthy] at heq
  | some s =>
    by_cases hek : s = "" <;> simp [jsTruthy, hek] at heq

lemma someBoolean_ignoredGlobs (glob : List String) :
    someBoolean (ignoredGlobs glob) =
      glob.any fun g => (isNegatedGlob g).negated && !((isNegatedGlob g).pattern == "") := by
  induction glob with
  | nil => rfl
  | cons g l ih =>
    simp only [ignoredGlobs, List.map_cons, someBoolean, List.any_cons] at ih ⊢
    rw [← ih]
    by_cases hn : (isNegatedGlob g).negated <;> simp [jsTruthy, hn, ignoredGlobs, someBoolean]

lemma someBoolean_cons (o : Option String) (l : List (Option String)) :
    someBoolean (o :: l) = (jsTruthy o || someBoolean l) := rfl

lemma filterBoolean_cons_false (o : Option String) (l : List (Option String))
    (h : jsTruthy o = false) :
    filterBoolean (o :: l) = filterBoolean l := by
  simp [filterBoolean, List.filterMap_cons, h]

lemma filterBoolean_cons_true (s : String) (l : List (Option String))
    (h : jsTruthy (some s) = true) :
    filterBoolean (some s :: l) = s :: filterBoolean l := by
  simp [filterBoolean, List.filterMap_cons, h]

lemma filterBoolean_eq_nil_iff (l : List (Option String)) :
    filterBoolean l = [] ↔ someBoolean l = false := by
  induction l with
  | nil => simp [filterBoolean, someBoolean]
  | cons o l ih =>
    by_cases ht : jsTruthy o = true
    · cases o with
      | none => simp [jsTruthy] at ht
      | some s =>
        rw [filterBoolean_cons_true s l ht, someBoolean_cons]
        simp [ht]
    · have hf : jsTruthy o = false := by simpa using ht
      rw [filterBoolean_cons_false o l hf, someBoolean_cons]
      simp only [hf, Bool.false_or]
      exact ih

/-! ## Claim theorems about the classification pipeline -/

/-- C1: for every candidate path, the built ignore predicate decides as
follows: if the path matches no negated-pattern slot, it is not ignored;
if it matches a negated slot but no positive slot, it is ignored;
otherwise it is ignored exactly when the last matching negated slot
occurs later in the caller's original pattern ordering than the last
matching positive slot (the predicate's post-reversal comparison
`ignoredIndex < watchedIndex` implements exactly this).  The hypotheses
say the predicate in question is the one attached by the entry point and
that the sentinel never matches the path. -/
theorem c1_ignore_predicate {β : Type} (m : String → String → Bool) (norm : String → String)
    (sparse path : String) (glob : List String) (ign v : β) (c : IsPathIgnoredClosure)
    (hres : resolveIgnored norm sparse glob ign = .composed v c)
    (hs : m sparse path = false) :
    isPathIgnored m c path =
      match lastMatch (slotMatches m norm path) (ignoredGlobs glob),
            lastMatch (slotMatches m norm path) (watchedGlobs glob) with
      | none, _ => false
      | some _, none => true
      | some i, some j => decide (j < i) := by
  have hc : c = getIsPathIgnored (ignoredPathsOf norm sparse glob)
      (watchedPathsOf norm sparse glob) := by
    unfold resolveIgnored at hres
    by_cases hsome : someBoolean (ignoredGlobs glob)
    · rw [if_pos hsome] at hres
      simp only [getIgnored, IgnoredCfg.composed.injEq] at hres
      exact hres.2.symm
    · rw [if_neg hsome] at hres
      simp at hres
  subst hc
  rw [isPathIgnored_getIsPathIgnored m path _ _
    (by rw [length_ignoredPathsOf, length_watchedPathsOf])]
  unfold ignoredPathsOf watchedPathsOf
  rw [lastMatch_toUnsparse m norm sparse path hs (ignoredGlobs glob),
    lastMatch_toUnsparse m norm sparse path hs (watchedGlobs glob)]

/-- Witness for C1: patterns `["a", "!a"]`, candidate path `"a"`, with
the literal-equality matcher; both hypotheses hold and the negation,
authored after the positive pattern, makes the path ignored. -/
theorem c1_ignore_predicate_witness :
    resolveIgnored (fun s => s) "+" ["a", "!a"] (0 : Nat) =
        IgnoredCfg.composed 0 (getIsPathIgnored (ignoredPathsOf (fun s => s) "+" ["a", "!a"])
          (watchedPathsOf (fun s => s) "+" ["a", "!a"])) ∧
    (fun g p => g == p) "+" "a" = false ∧
    isPathIgnored (fun g p => g == p)
        (getIsPathIgnored (ignoredPathsOf (fun s => s) "+" ["a", "!a"])
          (watchedPathsOf (fun s => s) "+" ["a", "!a"])) "a" =
      match lastMatch (slotMatches (fun g p => g == p) (fun s => s) "a")
              (ignoredGlobs ["a", "!a"]),
            lastMatch (slotMatches (fun g p => g == p) (fun s => s) "a")
              (watchedGlobs ["a", "!a"]) with
      | none, _ => false
      | some _, none => true
      | some i, some j => decide (j < i) :=
  ⟨by decide, by decide,
    c1_ignore_predicate (fun g p => g == p) (fun s => s) "+" "a" ["a", "!a"] 0 0
      (getIsPathIgnored (ignoredPathsOf (fun s => s) "+" ["a", "!a"])
        (watchedPathsOf (fun s => s) "+" ["a", "!a"])) (by decide) (by decide)⟩

/-- C5: a call of the entry point whose pattern set resolves to an empty
watch-set fails synchronously with the "Nothing to watch" error; the
error branch of the model carries no watcher, so none is created or
started. -/
theorem c5_nothing_to_watch {β : Type} (norm : String → String) (sparse : String)
    (glob : List String) (ign : β)
    (h : watched glob = []) :
    watch norm sparse glob ign = .error "Nothing to watch" := by
  have hf : someBoolean (watchedGlobs glob) = false :=
    (filterBoolean_eq_nil_iff (watchedGlobs glob)).mp h
  simp [watch, hf]

/-- Witness for C5: the pattern list `["!a"]` has an empty watch-set and
the call fails with the "Nothing to watch" error. -/
theorem c5_nothing_to_watch_witness :
    watched ["!a"] = ([] : List String) ∧
    watch (fun s => s) "+" ["!a"] (0 : Nat) = .error "Nothing to watch" :=
  ⟨by decide, c5_nothing_to_watch (fun s => s) "+" ["!a"] 0 (by decide)⟩

/-- C9: when no caller pattern is negated, no ignore predicate is built
or attached, and the ignore configuration handed to the watcher is the
caller-supplied (or defaulted) value untouched. -/
theorem c9_passthrough_ignored {β : Type} (norm : String → String) (sparse : String)
    (glob : List String) (ign : β)
    (h : ∀ g ∈ glob, (isNegatedGlob g).negated = false) :
    resolveIgnored norm sparse glob ign = .user ign := by
  have hfalse : someBoolean (ignoredGlobs glob) = false := by
    rw [someBoolean_ignoredGlobs, List.any_eq_false]
    intro g hg
    simp [h g hg]
  simp [resolveIgnored, hfalse]

/-- Witness for C9: a positive-only pattern list passes the caller's
ignore configuration through unchanged. -/
theorem c9_passthrough_ignored_witness :
    (∀ g ∈ ["a", "b"], (isNegatedGlob g).negated = false) ∧
    resolveIgnored (fun s => s) "+" ["a", "b"] (7 : Nat) = .user 7 :=
  ⟨by decide, c9_passthrough_ignored (fun s => s) "+" ["a", "b"] 7 (by decide)⟩

/-- C10: patterns whose body after stripping the negation marker is
empty are absent on both sides of the classification: the empty string
never enters the watch-set; the "some negated pattern exists" test that
decides whether the predicate is built counts exactly the negated
patterns with a nonempty stripped body; and a pattern list whose entries
all strip to the empty string resolves to an empty watch-set with no
predicate built. -/
theorem c10_empty_patterns_absent (glob1 glob2 : List String)
    (h : ∀ g ∈ glob2, (isNegatedGlob g).pattern = "") :
    ("" ∉ watched glob1) ∧
    (someBoolean (ignoredGlobs glob1) =
      glob1.any fun g => (isNegatedGlob g).negated && !((isNegatedGlob g).pattern == "")) ∧
    watched glob2 = [] ∧
    someBoolean (ignoredGlobs glob2) = false := by
  refine ⟨not_mem_filterBoolean_empty _, someBoolean_ignoredGlobs _, ?_, ?_⟩
  · rw [watched, filterBoolean, watchedGlobs, List.filterMap_map, List.filterMap_eq_nil_iff]
    intro g hg
    by_cases hn : (isNegatedGlob g).negated <;>
      simp [Function.comp, hn, jsTruthy, h g hg]
  · rw [someBoolean_ignoredGlobs, List.any_eq_false]
    intro g hg
    simp [h g hg]

/-! ## Lemmas and claim theorems about the run coordinator -/

lemma burstV1 (delay : Nat) (queue : Bool) (listeners : Nat) :
    ∀ (ts : List Nat) (prev : Nat) (s : SysState),
      s.pending = some (prev + delay) →
      List.Chain (fun a b => a ≤ b ∧ b < a + delay) prev ts →
      (ts.map Stim.change).foldl (procV1 delay queue listeners) s =
        { s with pending := some (ts.getLastD prev + delay) } := by
  intro ts
  induction ts with
  | nil =>
    intro prev s hp _
    obtain ⟨p, iq, ir, nf, st, em⟩ := s
    simp only [SysState.pending] at hp
    subst hp
    rfl
  | cons t ts ih =>
    intro prev s hp hchain
    obtain ⟨⟨hle, hlt⟩, hchain2⟩ := List.chain_cons.mp hchain
    rw [List.map_cons, List.foldl_cons]
    have hstep : procV1 delay queue listeners s (.change t) =
        { s with pending := some (t + delay) } := by
      simp only [procV1, fireDue, hp]
      rw [if_neg (by omega)]
    rw [hstep, ih t { s with pending := some (t + delay) } rfl hchain2, List.getLastD_cons]

/-- C4: a burst of one or more change events, each arriving within the
debounce delay of the previous one, produces exactly one task
invocation, and that invocation starts at the time of the last event of
the burst plus the delay.  Proved on the primary coordinator
(`getEventHandler` wrapped in `debounce`) for every queue setting and
listener count. -/
theorem c4_debounce_burst (delay : Nat) (queue : Bool) (listeners : Nat)
    (t0 : Nat) (rest : List Nat)
    (hchain : List.Chain (fun a b => a ≤ b ∧ b < a + delay) t0 rest) :
    (runV1 delay queue listeners ((t0 :: rest).map Stim.change)).starts =
      [rest.getLastD t0 + delay] := by
  unfold runV1
  rw [List.map_cons, List.foldl_cons]
  have h0 : procV1 delay queue listeners startState (.change t0) =
      { startState with pending := some (t0 + delay) } := by
    simp [procV1, fireDue, startState]
  rw [h0, burstV1 delay queue listeners rest t0 _ rfl hchain]
  simp [flushV1, onRunStartV1, startState]

/-- Witness for C4: three events at times 0, 1, 2 with delay 5 produce
exactly one task invocation, started at time 7. -/
theorem c4_debounce_burst_witness :
    List.Chain (fun a b => a ≤ b ∧ b < a + 5) 0 [1, 2] ∧
    (runV1 5 true 0 ([0, 1, 2].map Stim.change)).starts = [List.getLastD [1, 2] 0 + 5] :=
  ⟨List.Chain.cons (by decide) (List.Chain.cons (by decide) List.Chain.nil),
    c4_debounce_burst 5 true 0 0 [1, 2]
      (List.Chain.cons (by decide) (List.Chain.cons (by decide) List.Chain.nil))⟩

/-- C2 is violated by the primary coordinator: `onRunStart` of
`getEventHandler` never sets `isRunning`, so with the default options
two change events 400 apart (delay 200) and a task that has not yet
completed lead to two `asyncDone` invocations simultaneously in flight
(runs started at times 200 and 600, no completion in between), and the
running flag is still false. -/
theorem c2_two_in_flight :
    (runV1 200 true 0 [Stim.change 0, Stim.change 400]).inFlight = 2 ∧
    (runV1 200 true 0 [Stim.change 0, Stim.change 400]).starts = [200, 600] ∧
    (runV1 200 true 0 [Stim.change 0, Stim.change 400]).isRunning = false := by
  decide

/-- C3 is violated by the primary coordinator: with `queue` disabled, a
task outlasting the debounce window with one further event burst during
the run yields 2 invocations (the claim requires exactly 1); with
`queue` enabled and two further bursts during the run it yields 3
invocations (the claim requires exactly 2), because events arriving
during a run are never seen as such (`isRunning` is never true). -/
theorem c3_invocation_counts :
    (runV1 200 false 0 [Stim.change 0, Stim.change 400]).starts.length = 2 ∧
    (runV1 200 true 0 [Stim.change 0, Stim.change 400, Stim.change 800]).starts.length = 3 := by
  decide

/-- C6: when a task run completes with a failure, the primary
coordinator emits exactly one error event carrying the original failure
value exactly when the error channel's listener count is nonzero (with
zero listeners nothing is emitted and nothing is thrown), and the
coordinator afterwards still processes future events: a later change
event leads to a new task invocation after the debounce delay.  Stated
for any quiescent state (no timer pending, nothing queued, flags as in
every reachable state of this coordinator). -/
theorem c6_error_visibility (delay : Nat) (queue : Bool) (listeners : Nat)
    (t tn err : Nat) (s : SysState)
    (hp : s.pending = none) (hq : s.isQueued = false) (hr : s.isRunning = false) :
    (procV1 delay queue listeners s (Stim.complete t (some err))).emitted
        = s.emitted ++ (if hasErrorListener listeners = true then [err] else []) ∧
    (flushV1 queue (procV1 delay queue listeners
        (procV1 delay queue listeners s (Stim.complete t (some err))) (Stim.change tn))).starts
      = s.starts ++ [tn + delay] := by
  obtain ⟨p, iq, ir, nf, st, em⟩ := s
  simp only [SysState.pending, SysState.isQueued, SysState.isRunning] at hp hq hr
  subst hp hq hr
  by_cases hL : hasErrorListener listeners = true <;>
    simp [procV1, fireDue, onRunEndV1, onRunStartV1, flushV1, hL]

/-- Witness for C6: a failing completion with one listener emits the
error value once, and a change event afterwards starts a fresh run. -/
theorem c6_error_visibility_witness :
    (({ pending := none, isQueued := false, isRunning := false
        inFlight := 1, starts := [100], emitted := [] } : SysState)).pending = none ∧
    (({ pending := none, isQueued := false, isRunning := false
        inFlight := 1, starts := [100], emitted := [] } : SysState)).isQueued = false ∧
    (({ pending := none, isQueued := false, isRunning := false
        inFlight := 1, starts := [100], emitted := [] } : SysState)).isRunning = false ∧
    ((procV1 200 true 1
        { pending := none, isQueued := false, isRunning := false
          inFlight := 1, starts := [100], emitted := [] } (Stim.complete 150 (some 7))).emitted
      = [] ++ (if hasErrorListener 1 = true then [7] else []) ∧
    (flushV1 true (procV1 200 true 1
        (procV1 200 true 1
          { pending := none, isQueued := false, isRunning := false
            inFlight := 1, starts := [100], emitted := [] } (Stim.complete 150 (some 7)))
        (Stim.change 300))).starts = [100] ++ [300 + 200]) :=
  ⟨rfl, rfl, rfl,
    c6_error_visibility 200 true 1 150 300 7
      { pending := none, isQueued := false, isRunning := false
        inFlight := 1, starts := [100], emitted := [] } rfl rfl rfl⟩

/-- C7: whenever a task run completes while a rerun is queued, the
coordinator starts the new task invocation at the completion time
itself: the queued rerun is not routed through the debounced handler
(the debounce timer stays unarmed) and incurs no additional delay.
Proved on the `getDebounced` coordinator, the cited definition in which
a rerun can be queued. -/
theorem c7_queued_rerun_immediate (delay : Nat) (queue : Bool) (listeners : Nat)
    (t : Nat) (e : Option Nat) (s : SysState)
    (hp : s.pending = none) (hq : s.isQueued = true) :
    (procV2 delay queue listeners s (Stim.complete t e)).starts = s.starts ++ [t] ∧
    (procV2 delay queue listeners s (Stim.complete t e)).pending = none ∧
    (procV2 delay queue listeners s (Stim.complete t e)).isRunning = true := by
  obtain ⟨p, iq, ir, nf, st, em⟩ := s
  simp only [SysState.pending, SysState.isQueued] at hp hq
  subst hp hq
  cases e with
  | none => simp [procV2, fireDue, onRunEndV2, onRunStartV2]
  | some err =>
      by_cases hL : hasErrorListener listeners = true <;>
        simp [procV2, fireDue, onRunEndV2, onRunStartV2, hL]

/-- Witness for C7: a completion at time 42 with a rerun queued starts
the rerun at time 42, with the debounce timer unarmed. -/
theorem c7_queued_rerun_immediate_witness :
    (({ pending := none, isQueued := true, isRunning := true
        inFlight := 1, starts := [10], emitted := [] } : SysState)).pending = none ∧
    (({ pending := none, isQueued := true, isRunning := true
        inFlight := 1, starts := [10], emitted := [] } : SysState)).isQueued = true ∧
    ((procV2 200 true 0
        { pending := none, isQueued := true, isRunning := true
          inFlight := 1, starts := [10], emitted := [] } (Stim.complete 42 none)).starts
      = [10] ++ [42] ∧
    (procV2 200 true 0
        { pending := none, isQueued := true, isRunning := true
          inFlight := 1, starts := [10], emitted := [] } (Stim.complete 42 none)).pending = none ∧
    (procV2 200 true 0
        { pending := none, isQueued := true, isRunning := true
          inFlight := 1, starts := [10], emitted := [] } (Stim.complete 42 none)).isRunning
      = true) :=
  ⟨rfl, rfl,
    c7_queued_rerun_immediate 200 true 0 42 none
      { pending := none, isQueued := true, isRunning := true
        inFlight := 1, starts := [10], emitted := [] } rfl rfl⟩

/-- Witness for C10: the list `["", "!"]` strips to empty on both sides,
yields an empty watch-set and no attached predicate, and the nonempty
list `["a", "!"]` shows the "some negated pattern" test ignoring the
empty negation. -/
theorem c10_empty_patterns_absent_witness :
    (∀ g ∈ ["", "!"], (isNegatedGlob g).pattern = "") ∧
    (("" ∉ watched ["a", "!"]) ∧
      (someBoolean (ignoredGlobs ["a", "!"]) =
        List.any ["a", "!"] fun g =>
          (isNegatedGlob g).negated && !((isNegatedGlob g).pattern == "")) ∧
      watched ["", "!"] = [] ∧
      someBoolean (ignoredGlobs ["", "!"]) = false) :=
  ⟨by decide, c10_empty_patterns_absent ["a", "!"] ["", "!"] (by decide)⟩

/-! ## Lemmas and the claim theorem about the heap model -/

namespace Heap

lemma length_writeRef (σ : Store) (r : Nat) (v : JSArray) :
    (writeRef σ r v).length = σ.length := by
  simp [writeRef]

lemma readRef_append_lt (σ : Store) (vs : List JSArray) (r : Nat) (h : r < σ.length) :
    readRef (σ ++ vs) r = readRef σ r := by
  unfold readRef
  rw [List.getD_eq_getElem?_getD, List.getD_eq_getElem?_getD, List.getElem?_append, if_pos h]

lemma readRef_writeRef_ne (σ : Store) (rp r : Nat) (v : JSArray) (h : rp ≠ r) :
    readRef (writeRef σ rp v) r = readRef σ r := by
  unfold readRef writeRef
  rw [List.getD_eq_getElem?_getD, List.getD_eq_getElem?_getD, List.getElem?_set_ne h]

lemma length_classifyStep (src ig wa : Nat) (σ : Store) (i : Nat) :
    (classifyStep src ig wa σ i).length = σ.length := by
  unfold classifyStep
  cases (readRef σ src).getD i none with
  | none => rfl
  | some g =>
    by_cases hn : (GlobWatcher.isNegatedGlob g).negated <;> simp [hn, writeRef]

lemma readRef_classifyStep_ne (src ig wa : Nat) (σ : Store) (i : Nat) (g : Nat)
    (hig : ig ≠ g) (hwa : wa ≠ g) :
    readRef (classifyStep src ig wa σ i) g = readRef σ g := by
  unfold classifyStep
  cases (readRef σ src).getD i none with
  | none => rfl
  | some s =>
    by_cases hn : (GlobWatcher.isNegatedGlob s).negated <;>
      simp [hn, readRef_writeRef_ne σ ig g _ hig, readRef_writeRef_ne σ wa g _ hwa]

lemma foldl_pres_store {α : Type} (P : Store → Prop) (f : Store → α → Store) (l : List α)
    (hf : ∀ σ a, P σ → P (f σ a)) :
    ∀ σ, P σ → P (l.foldl f σ) := by
  induction l with
  | nil => intro σ h; exact h
  | cons a l ih => intro σ h; exact ih _ (hf σ a h)

lemma classifyLoop_pres (σ : Store) (src ig wa : Nat) (g : Nat)
    (hig : ig ≠ g) (hwa : wa ≠ g) :
    readRef (classifyLoop σ src ig wa) g = readRef σ g ∧
      (classifyLoop σ src ig wa).length = σ.length := by
  unfold classifyLoop
  exact foldl_pres_store
    (fun σ2 => readRef σ2 g = readRef σ g ∧ σ2.length = σ.length)
    (classifyStep src ig wa) _
    (fun σ2 i hyp => ⟨(readRef_classifyStep_ne src ig wa σ2 i g hig hwa).trans hyp.1,
      (length_classifyStep src ig wa σ2 i).trans hyp.2⟩)
    σ ⟨rfl, rfl⟩

lemma classifyPhase_pres (σ0 : Store) (globRef g : Nat) (hg : g < σ0.length) :
    readRef (classifyPhase σ0 globRef) g = readRef σ0 g ∧
      (classifyPhase σ0 globRef).length = σ0.length + 3 := by
  unfold classifyPhase
  have hloop := classifyLoop_pres
    ((σ0 ++ [readRef σ0 globRef] ++ [List.replicate (readRef (σ0 ++ [readRef σ0 globRef]) σ0.length).length none]) ++
      [List.replicate (readRef (σ0 ++ [readRef σ0 globRef]) σ0.length).length none])
    σ0.length (σ0 ++ [readRef σ0 globRef]).length
    (σ0 ++ [readRef σ0 globRef] ++ [List.replicate (readRef (σ0 ++ [readRef σ0 globRef]) σ0.length).length none]).length
    g (by simp; omega) (by simp; omega)
  refine ⟨hloop.1.trans ?_, by rw [hloop.2]; simp⟩
  rw [readRef_append_lt _ _ _ (by simp; omega), readRef_append_lt _ _ _ (by simp; omega),
    readRef_append_lt _ _ _ hg]

lemma predicatePhase_pres (norm : String → String) (sparse : String)
    (σ4 : Store) (igRef waRef g : Nat) (hg : g < σ4.length) :
    readRef (predicatePhase norm sparse σ4 igRef waRef) g = readRef σ4 g := by
  unfold predicatePhase
  rw [readRef_writeRef_ne _ _ _ _ (by simp [length_writeRef]; omega)]
  rw [readRef_writeRef_ne _ _ _ _ (by omega)]
  rw [readRef_writeRef_ne _ _ _ _ (by simp [length_writeRef]; omega)]
  rw [readRef_append_lt _ _ _ (by simp [length_writeRef]; omega)]
  rw [readRef_writeRef_ne _ _ _ _ (by omega)]
  rw [readRef_append_lt _ _ _ hg]

end Heap

/-- C8: the entry point never mutates the caller's pattern array: after
the whole classification-and-predicate pipeline has run on the heap
model, the array object the caller passed in holds exactly its pre-call
contents.  The in-place writes (`toUnsparse`, the classification loop,
and the lockstep `reverse`) all target arrays allocated by the spread
copy or by `map` inside the call. -/
theorem c8_no_caller_mutation (norm : String → String) (sparse : String)
    (σ : Heap.Store) (globRef : Nat) (h : globRef < σ.length) :
    Heap.readRef (Heap.watchHeap norm sparse σ globRef) globRef = Heap.readRef σ globRef := by
  unfold Heap.watchHeap
  have hc := Heap.classifyPhase_pres σ globRef globRef h
  by_cases hb : GlobWatcher.someBoolean
      (Heap.readRef (Heap.classifyPhase σ globRef) (σ.length + 1)) = true
  · rw [if_pos hb]
    rw [Heap.predicatePhase_pres norm sparse _ _ _ globRef (by omega)]
    exact hc.1
  · rw [if_neg hb]
    exact hc.1

/-- Witness for C8: a one-element store holding the caller's array
`["a", "!b"]` is unchanged at the caller's reference after the call. -/
theorem c8_no_caller_mutation_witness :
    (0 : Nat) < ([[some "a", some "!b"]] : Heap.Store).length ∧
    Heap.readRef (Heap.watchHeap (fun s => s) "+" [[some "a", some "!b"]] 0) 0 =
      Heap.readRef ([[some "a", some "!b"]] : Heap.Store) 0 :=
  ⟨by decide, c8_no_caller_mutation (fun s => s) "+" [[some "a", some "!b"]] 0 (by decide)⟩

end GlobWatcher
